import Mathlib

/-!
# Freeminer: server-object factory registry, wielded item access, map constants

A shallow embedding of

* `src/constants.h` (the map constants),
* `src/serverobject.cpp` (`ServerActiveObject::create`, `registerType`,
  `getWieldedItem`, `setWieldedItem`),
* `src/mapgen_v5.h` (the interface of `MapgenV5`).

Machine integers are `Nat` / `Int` with the reduction modulo `2 ^ w` written
out where a value is converted to a narrower or differently signed type.
-/

namespace Freeminer

/-! ## Machine integer conversions -/

/-- Conversion to `u8`. -/
def toU8 (n : Nat) : Nat := n % 2 ^ 8

/-- Conversion to `u16`. -/
def toU16 (n : Nat) : Nat := n % 2 ^ 16

/-- Conversion of a signed value to `u32` (two's complement wrap). -/
def toU32 (i : Int) : Nat := (i % 2 ^ 32).toNat

/-- The cast `(s32)n` of an unsigned 32-bit value. -/
def toS32 (n : Nat) : Int :=
  if n % 2 ^ 32 < 2 ^ 31 then ((n % 2 ^ 32 : Nat) : Int) else ((n % 2 ^ 32 : Nat) : Int) - 2 ^ 32

/-! ## constants.h -/

/-- The constant `#define MAP_GENERATION_LIMIT (31000)`. -/
def MAP_GENERATION_LIMIT : Int := 31000

/-- The constant `#define MAP_BLOCKP 4`. -/
def MAP_BLOCKP : Nat := 4

/-- The constant `#define MAP_BLOCKSIZE (1<<MAP_BLOCKP)`. -/
def MAP_BLOCKSIZE : Nat := 1 <<< MAP_BLOCKP

/-- A coordinate is aligned to the chunk edge when the edge length divides it. -/
def chunkAligned (c : Int) : Prop := (MAP_BLOCKSIZE : Int) ∣ c

instance (c : Int) : Decidable (chunkAligned c) := by
  unfold chunkAligned; infer_instance

/-- The low `MAP_BLOCKP` bits of a coordinate in two's complement:
`c & (MAP_BLOCKSIZE - 1)`. -/
def lowBlockBits (c : Int) : Int := Int.land c ((MAP_BLOCKSIZE : Int) - 1)

/-! ## serverobject.cpp: the factory registry -/

/-- Lookup in a `std::map<u16, F>` held as its list of entries:
`m.find(key)`, with `none` for `m.end()`. -/
def mapFind {F : Type} : List (Nat × F) → Nat → Option F
  | [], _ => none
  | (k, f) :: rest, key => if k = key then some f else mapFind rest key

/-- The assignment `m[key] = f` of a `std::map<u16, F>`: the value of an
existing entry is overwritten, a new entry is inserted in key order. -/
def mapAssign {F : Type} : List (Nat × F) → Nat → F → List (Nat × F)
  | [], key, f => [(key, f)]
  | (k, g) :: rest, key, f =>
    if key = k then (k, f) :: rest
    else if key < k then (key, f) :: (k, g) :: rest
    else (k, g) :: mapAssign rest key f

/-- The function pointer type
`ServerActiveObject* (*Factory)(ServerEnvironment *env, v3f pos, const std::string &data)`.
The environment, position and object types are parameters; a factory runs in
the program state `σ`, which it may change, and returns an object pointer
(`none` is `NULL`). -/
abbrev Factory (Env Pos σ Obj : Type) := Env → Pos → String → σ → Option Obj × σ

/-- What a call of `create` does besides returning. -/
inductive CreateEffect where
  /-- The line `dstream<<"WARNING: ServerActiveObject: No factory for type="<<type`. -/
  | warnNoFactory (type : Nat)
  /-- The call `(*f)(env, pos, data)` of the factory stored under `key`. -/
  | callFactory (key : Nat)
  deriving DecidableEq, Repr

/-- Outcome of `create`: the returned pointer, the program state afterwards
and the effects in the order they happened. -/
structure CreateResult (σ Obj : Type) where
  object : Option Obj
  state : σ
  effects : List CreateEffect

namespace ServerActiveObject

/-- The function `ServerActiveObject::create(u8 type, ServerEnvironment *env,
u16 id, v3f pos, const std::string &data)`. The argument `type` arrives as a
`u8`; `m_types` is the static registry; the body does not use `id`. -/
def create {Env Pos σ Obj : Type} (m_types : List (Nat × Factory Env Pos σ Obj))
    (type : Nat) (env : Env) (_id : Nat) (pos : Pos) (data : String) (s : σ) :
    CreateResult σ Obj :=
  let type := toU8 type
  match mapFind m_types type with
  | none => ⟨none, s, [CreateEffect.warnNoFactory type]⟩
  | some f =>
    let r := f env pos data s
    ⟨r.1, r.2, [CreateEffect.callFactory type]⟩

/-- The function `ServerActiveObject::registerType(u16 type, Factory f)`: the
registry after the call. -/
def registerType {F : Type} (m_types : List (Nat × F)) (type : Nat) (f : F) :
    List (Nat × F) :=
  let type := toU16 type
  match mapFind m_types type with
  | some _ => m_types
  | none => mapAssign m_types type f

end ServerActiveObject

/-! ## serverobject.cpp: the wielded item -/

/-- Modelled from the spec: `InventoryList` is declared in `inventory.h`, which is
not among the sources. It is taken as a named vector of items (`m_items`). The
item type is a parameter whose `default` stands for the empty `ItemStack()`. -/
structure InventoryList (Item : Type) where
  name : String
  m_items : List Item

/-- Modelled from the spec: `Inventory` is declared in `inventory.h`, which is not
among the sources. It is taken as the vector of its lists (`m_lists`). -/
structure Inventory (Item : Type) where
  m_lists : List (InventoryList Item)

namespace InventoryList

/-- Modelled from the spec: `InventoryList::getSize()` (not among the sources), the
number of items, an unsigned 32-bit value. -/
def getSize {Item : Type} (l : InventoryList Item) : Nat := l.m_items.length

/-- Modelled from the spec: `InventoryList::getItem(u32 i)` (not among the
sources). `none` stands for a read outside `m_items`, which has no defined
result. -/
def getItem {Item : Type} (l : InventoryList Item) (i : Nat) : Option Item :=
  l.m_items[i]?

/-- Modelled from the spec: `InventoryList::changeItem(u32 i, const ItemStack &)`
(not among the sources). A position of the list receives the item; an index
that is no position of the list changes nothing. -/
def changeItem {Item : Type} (l : InventoryList Item) (i : Nat) (item : Item) :
    InventoryList Item :=
  if i ≥ l.m_items.length then l else { l with m_items := l.m_items.set i item }

end InventoryList

namespace Inventory

/-- Position in `m_lists` of the first list called `name`. -/
def findList {Item : Type} : List (InventoryList Item) → String → Option Nat
  | [], _ => none
  | l :: rest, name =>
    if l.name = name then some 0 else (findList rest name).map (· + 1)

/-- Modelled from the spec: `Inventory::getList(const std::string &name)` (not
among the sources): the first list of that name, `none` for `NULL`. -/
def getList {Item : Type} (inv : Inventory Item) (name : String) :
    Option (InventoryList Item) :=
  match findList inv.m_lists name with
  | none => none
  | some j => inv.m_lists[j]?

/-- The inventory after the list that `getList name` points to has been
replaced by `l`. -/
def putList {Item : Type} (inv : Inventory Item) (name : String)
    (l : InventoryList Item) : Inventory Item :=
  match findList inv.m_lists name with
  | none => inv
  | some j => { m_lists := inv.m_lists.set j l }

/-- The item at position `i` of the `j`-th list, if there is one. -/
def itemAt {Item : Type} (inv : Inventory Item) (j i : Nat) : Option Item :=
  match inv.m_lists[j]? with
  | none => none
  | some l => l.m_items[i]?

end Inventory

/-- Modelled from the spec: the state of a server active object that the
wielded-item accessors read and write; the class is declared in
`serverobject.h`, which is not among the sources. The four fields stand for the
results of the virtual methods `getInventory()` (`none` is `NULL`),
`getWieldList()`, `getWieldIndex()` (an `int`, compared with an `s32` in
`getWieldedItem`) and for the flag raised by `setInventoryModified()`. -/
structure ServerActiveObject (Item : Type) where
  inventory : Option (Inventory Item)
  wieldList : String
  wieldIndex : Int
  inventoryModified : Bool

namespace ServerActiveObject

/-- The function `ServerActiveObject::getWieldedItem() const`. `none` stands
for a read outside the wield list. -/
def getWieldedItem {Item : Type} [Inhabited Item] (obj : ServerActiveObject Item) :
    Option Item :=
  match obj.inventory with
  | some inv =>
    match inv.getList obj.wieldList with
    | some list =>
      if obj.wieldIndex < toS32 list.getSize then list.getItem (toU32 obj.wieldIndex)
      else some default
    | none => some default
  | none => some default

/-- The function `ServerActiveObject::setWieldedItem(const ItemStack &item)`:
the returned flag and the object afterwards. -/
def setWieldedItem {Item : Type} (obj : ServerActiveObject Item) (item : Item) :
    Bool × ServerActiveObject Item :=
  match obj.inventory with
  | some inv =>
    match inv.getList obj.wieldList with
    | some list =>
      let list' := list.changeItem (toU32 obj.wieldIndex) item
      (true, { obj with inventory := some (inv.putList obj.wieldList list'),
                        inventoryModified := true })
    | none => (false, obj)
  | none => (false, obj)

/-- The list the wielded item lives in, when the object has an inventory
holding it. -/
def wieldListOf {Item : Type} (obj : ServerActiveObject Item) :
    Option (InventoryList Item) :=
  match obj.inventory with
  | some inv => inv.getList obj.wieldList
  | none => none

/-- The item at position `i` of the `j`-th list of the object's inventory. -/
def itemAt {Item : Type} (obj : ServerActiveObject Item) (j i : Nat) : Option Item :=
  match obj.inventory with
  | some inv => inv.itemAt j i
  | none => none

end ServerActiveObject

/-! ## mapgen_v5.h: the V5 map generator

The header declares the generator; its member functions are defined in
`mapgen_v5.cpp`, which is not among the sources. -/

/-- Three signed 16-bit coordinates (`v3s16`). -/
structure v3s16 where
  X : Int
  Y : Int
  Z : Int
  deriving DecidableEq, Repr

/-- Two signed 16-bit coordinates (`v2s16`); for a map column `X` is the
east-west and `Y` the north-south coordinate. -/
structure v2s16 where
  X : Int
  Y : Int
  deriving DecidableEq, Repr

/-- Modelled from the spec: the generation parameters ("sea level,
surface-layer depths, biome noise thresholds", the "configured deep/hot
threshold" of the liquid fill). Their declaration (`MapgenParams`) is in
`mapgen.h`, which is not among the sources. -/
structure GenerationParameters where
  seaLevel : Int
  surfaceDepth : Int
  desertThreshold : Int
  coldThreshold : Int
  lavaLevel : Int
  deriving DecidableEq, Repr

/-- Modelled from the spec: the noise/density field, "a pure function
`sample(seed, coordinate) -> scalar`", with the channel the base terrain
height is derived from and the auxiliary channel of the biome classifier.
Scalars are integers (heights in voxel units). The sampler itself is not
among the sources and is a parameter of the generator. -/
structure NoiseField where
  height : Nat → Int → Int → Int
  biome : Nat → Int → Int → Int

/-- Modelled from the spec: the biome of a column, "temperate, desert, cold". -/
inductive Biome where
  | desert
  | temperate
  | cold
  deriving DecidableEq, Repr

/-- The members of `class MapgenV5` that the synthesis reads: the content
identifiers of the header, with the world seed and the generation parameters
of the base class `Mapgen` (declared in `mapgen.h`, not among the sources). -/
structure MapgenV5 where
  seed : Nat
  params : GenerationParameters
  c_stone : Nat
  c_dirt : Nat
  c_dirt_with_grass : Nat
  c_sand : Nat
  c_water_source : Nat
  c_lava_source : Nat
  c_ice : Nat
  c_gravel : Nat
  c_cobble : Nat
  c_desert_sand : Nat
  c_desert_stone : Nat
  c_mossycobble : Nat
  c_sandbrick : Nat
  c_stair_cobble : Nat
  c_stair_sandstone : Nat
  deriving DecidableEq, Repr

/-- Modelled from the spec: the error of the synthesis, "malformed coordinate
ranges ... fail with `InvalidRange`". -/
inductive GenError where
  | InvalidRange
  deriving DecidableEq, Repr

/-- Modelled from the spec: the voxel buffer, "a dense three-dimensional array
of content identifiers sized exactly to the chunk coordinate range". A cell
is `none` when it is left "empty (air / no content)". The cells are stored
x-fastest, then y, then z (the strides `ystride`, `zstride` of the header). -/
structure VoxelBuffer where
  MinEdge : v3s16
  MaxEdge : v3s16
  data : List (Option Nat)
  deriving DecidableEq, Repr

/-- Number of voxels from `lo` to `hi`, both inclusive. -/
def extent (lo hi : Int) : Nat := (hi - lo + 1).toNat

/-- Whether `c` lies between `lo` and `hi`, both inclusive. -/
def between (lo hi c : Int) : Prop := lo ≤ c ∧ c ≤ hi

instance (lo hi c : Int) : Decidable (between lo hi c) := by
  unfold between; infer_instance

namespace VoxelBuffer

/-- Step of the index from one row (`y`) to the next. -/
def ystride (buf : VoxelBuffer) : Nat := extent buf.MinEdge.X buf.MaxEdge.X

/-- Step of the index from one slice (`z`) to the next. -/
def zstride (buf : VoxelBuffer) : Nat :=
  extent buf.MinEdge.X buf.MaxEdge.X * extent buf.MinEdge.Y buf.MaxEdge.Y

/-- Whether a position lies inside the buffer's coordinate range. -/
def contains (buf : VoxelBuffer) (p : v3s16) : Prop :=
  between buf.MinEdge.X buf.MaxEdge.X p.X ∧ between buf.MinEdge.Y buf.MaxEdge.Y p.Y ∧
    between buf.MinEdge.Z buf.MaxEdge.Z p.Z

instance (buf : VoxelBuffer) (p : v3s16) : Decidable (buf.contains p) := by
  unfold contains; infer_instance

/-- Index of a position in `data`. -/
def index (buf : VoxelBuffer) (p : v3s16) : Nat :=
  (p.Z - buf.MinEdge.Z).toNat * buf.zstride + (p.Y - buf.MinEdge.Y).toNat * buf.ystride
    + (p.X - buf.MinEdge.X).toNat

/-- The content of the cell at `p`; air outside the buffer. -/
def get (buf : VoxelBuffer) (p : v3s16) : Option Nat :=
  if buf.contains p then (buf.data[buf.index p]?).join else none

/-- Scan of the column `(x, z)` downwards from the height `MinEdge.Y + k - 1`
for the first cell that is not air. -/
def topFilledFrom (buf : VoxelBuffer) (x z : Int) : Nat → Option Int
  | 0 => none
  | k + 1 =>
    if (buf.get ⟨x, buf.MinEdge.Y + k, z⟩).isSome then some (buf.MinEdge.Y + k)
    else topFilledFrom buf x z k

/-- The vertical coordinate of the top filled (non-air) voxel of the column
`(x, z)` of the buffer, `none` when the whole column is air. -/
def topFilled (buf : VoxelBuffer) (x z : Int) : Option Int :=
  topFilledFrom buf x z (extent buf.MinEdge.Y buf.MaxEdge.Y)

end VoxelBuffer

namespace MapgenV5

/-- Modelled from the spec: step 1 of the synthesis, shared with the
ground-level query: "sample the density/height field at (x, z) to obtain a
base terrain height"; "columns whose base height exceeds the generation's
vertical limit are clamped to the limit". -/
def baseHeight (N : NoiseField) (mg : MapgenV5) (x z : Int) : Int :=
  min (N.height mg.seed x z) MAP_GENERATION_LIMIT

/-- Modelled from the spec: the "biome classifier derived from an auxiliary
noise channel"; "ties are broken by a fixed priority order (desert >
temperate > cold)". -/
def biomeAt (N : NoiseField) (mg : MapgenV5) (x z : Int) : Biome :=
  if mg.params.desertThreshold ≤ N.biome mg.seed x z then Biome.desert
  else if mg.params.coldThreshold ≤ N.biome mg.seed x z then Biome.temperate
  else Biome.cold

/-- Modelled from the spec: steps 2 and 3, the identifier of a terrain cell at
height `y` of a column of base height `h`: base rock, and for the topmost
`surfaceDepth` cells the surface dressing ("grass-topped dirt above sea level
in temperate biomes, sand near and below sea level, desert variants when ...
arid"). -/
def terrainContent (mg : MapgenV5) (b : Biome) (h y : Int) : Nat :=
  if h - y < mg.params.surfaceDepth then
    match b with
    | Biome.desert => mg.c_desert_sand
    | _ =>
      if h ≤ mg.params.seaLevel then mg.c_sand
      else if y = h then mg.c_dirt_with_grass
      else mg.c_dirt
  else mg.c_stone

/-- Modelled from the spec: step 4, the identifier of a liquid cell ("water
source normally, lava source below a configured deep/hot threshold", "ice
instead of water source in cold biomes"). -/
def liquidContent (mg : MapgenV5) (b : Biome) (y : Int) : Nat :=
  if y < mg.params.lavaLevel then mg.c_lava_source
  else if b = Biome.cold then mg.c_ice
  else mg.c_water_source

/-- Modelled from the spec: steps 2 to 5 for one cell of a column of base
height `h`: terrain up to the base height, liquid "strictly between base
height (exclusive) and sea level (inclusive)", and "cells above both the
terrain height and any liquid level empty". -/
def columnCell (mg : MapgenV5) (b : Biome) (h y : Int) : Option Nat :=
  if y ≤ h then some (terrainContent mg b h y)
  else if y ≤ mg.params.seaLevel then some (liquidContent mg b y)
  else none

/-- Modelled from the spec: the content the synthesis gives the voxel at
`(x, y, z)`: the column rules at the column's biome and base height (part of
`mapgen_v5.cpp`, which is not among the sources). -/
def cellAt (N : NoiseField) (mg : MapgenV5) (x y z : Int) : Option Nat :=
  columnCell mg (biomeAt N mg x z) (baseHeight N mg x z) y

/-- Modelled from the spec: a well-formed coordinate range: both corners
"aligned to the fixed chunk edge length" (the minimum corner and the voxel
after the inclusive maximum corner), not "exceeding the world's generation
limit", and not empty. -/
def validRange (node_min node_max : v3s16) : Prop :=
  (chunkAligned node_min.X ∧ chunkAligned node_min.Y ∧ chunkAligned node_min.Z) ∧
  (chunkAligned (node_max.X + 1) ∧ chunkAligned (node_max.Y + 1) ∧
    chunkAligned (node_max.Z + 1)) ∧
  (node_min.X ≤ node_max.X ∧ node_min.Y ≤ node_max.Y ∧ node_min.Z ≤ node_max.Z) ∧
  (-MAP_GENERATION_LIMIT ≤ node_min.X ∧ -MAP_GENERATION_LIMIT ≤ node_min.Y ∧
    -MAP_GENERATION_LIMIT ≤ node_min.Z) ∧
  (node_max.X ≤ MAP_GENERATION_LIMIT ∧ node_max.Y ≤ MAP_GENERATION_LIMIT ∧
    node_max.Z ≤ MAP_GENERATION_LIMIT)

instance (node_min node_max : v3s16) : Decidable (validRange node_min node_max) := by
  unfold validRange; infer_instance

/-- Modelled from the spec: the cells of the range from `node_min` to
`node_max` in storage order, each column filled by the column rules (part of
`mapgen_v5.cpp`, which is not among the sources). -/
def fillCells (N : NoiseField) (mg : MapgenV5) (node_min node_max : v3s16) :
    List (Option Nat) :=
  let ex := extent node_min.X node_max.X
  let ey := extent node_min.Y node_max.Y
  let ez := extent node_min.Z node_max.Z
  (List.range (ex * ey * ez)).map fun i =>
    cellAt N mg (node_min.X + (i % ex : Nat)) (node_min.Y + (i / ex % ey : Nat))
      (node_min.Z + (i / (ex * ey) : Nat))

/-- Modelled from the spec: `MapgenV5::makeChunk`, the operation
`generate(coordinate_range, seed, params, registry) -> VoxelBuffer`; its
definition is in `mapgen_v5.cpp`, which is not among the sources. -/
def makeChunk (N : NoiseField) (mg : MapgenV5) (node_min node_max : v3s16) :
    Except GenError VoxelBuffer :=
  if validRange node_min node_max then
    Except.ok ⟨node_min, node_max, fillCells N mg node_min node_max⟩
  else Except.error GenError.InvalidRange

/-- Modelled from the spec: `MapgenV5::getGroundLevelAtPoint`, the operation
`groundLevel(column, seed, params) -> height`, which "must use exactly the
same height-derivation step as 4.4 step 1, without allocating a buffer or
performing steps 2-5"; its definition is in `mapgen_v5.cpp`, which is not among
the sources. -/
def getGroundLevelAtPoint (N : NoiseField) (mg : MapgenV5) (p : v2s16) : Int :=
  baseHeight N mg p.X p.Y

end MapgenV5

/-! ## Example data -/

/-- A factory whose object is the length of `data`; it counts its calls in the
program state. -/
def exampleFactoryA : Factory Unit Unit Nat Nat :=
  fun _ _ data s => (some data.length, s + 1)

/-- A factory whose object is the length of `data` plus 100; it counts its
calls in the program state. -/
def exampleFactoryB : Factory Unit Unit Nat Nat :=
  fun _ _ data s => (some (data.length + 100), s + 1)

/-- A registry with the types 1 and 2. -/
def exampleRegistry : List (Nat × Factory Unit Unit Nat Nat) :=
  [(1, exampleFactoryA), (2, exampleFactoryB)]

/-- A registry with the types 44 and 300, as `registerType` builds it. -/
def exampleWideRegistry : List (Nat × Factory Unit Unit Nat Nat) :=
  ServerActiveObject.registerType
    (ServerActiveObject.registerType [] 44 exampleFactoryB) 300 exampleFactoryA

/-- An object whose wield list "main" holds the items 5 and 6, wielding
position 1. Items are numbers, the empty item is 0. -/
def exampleObject : ServerActiveObject Nat :=
  ⟨some ⟨[⟨"craft", [1]⟩, ⟨"main", [5, 6]⟩]⟩, "main", 1, false⟩

/-- An object whose wield list "main" holds one item and whose wield index 1
is past the end of the list. -/
def exampleObjectPastEnd : ServerActiveObject Nat :=
  ⟨some ⟨[⟨"main", [5]⟩]⟩, "main", 1, false⟩

/-- An object whose wield list "main" holds one item and whose wield index is
negative. -/
def exampleObjectNegative : ServerActiveObject Nat :=
  ⟨some ⟨[⟨"main", [5]⟩]⟩, "main", -1, false⟩

/-- A noise field of constant height 0. -/
def flatNoise : NoiseField := ⟨fun _ _ _ => 0, fun _ _ _ => 0⟩

/-- A noise field of constant height 3. -/
def plateauNoise : NoiseField := ⟨fun _ _ _ => 3, fun _ _ _ => 0⟩

/-- A noise field of constant height 40. -/
def highNoise : NoiseField := ⟨fun _ _ _ => 40, fun _ _ _ => 0⟩

/-- A generator with sea level 1, no surface dressing, temperate everywhere,
and the content identifiers 1 to 15 in the order of the header. -/
def flatGen : MapgenV5 :=
  { seed := 42,
    params := { seaLevel := 1, surfaceDepth := 0, desertThreshold := 100,
                coldThreshold := -100, lavaLevel := -1000 },
    c_stone := 1, c_dirt := 2, c_dirt_with_grass := 3, c_sand := 4, c_water_source := 5,
    c_lava_source := 6, c_ice := 7, c_gravel := 8, c_cobble := 9, c_desert_sand := 10,
    c_desert_stone := 11, c_mossycobble := 12, c_sandbrick := 13, c_stair_cobble := 14,
    c_stair_sandstone := 15 }

/-- The buffer of the flat scenario: the range from (0,0,0) to (15,15,15). -/
def flatBuffer : VoxelBuffer :=
  ⟨⟨0, 0, 0⟩, ⟨15, 15, 15⟩, MapgenV5.fillCells flatNoise flatGen ⟨0, 0, 0⟩ ⟨15, 15, 15⟩⟩

/-- The buffer of the range from (0,0,0) to (15,15,15) under the height 40. -/
def highBuffer : VoxelBuffer :=
  ⟨⟨0, 0, 0⟩, ⟨15, 15, 15⟩, MapgenV5.fillCells highNoise flatGen ⟨0, 0, 0⟩ ⟨15, 15, 15⟩⟩

/-- The buffer of the range from (0,0,0) to (15,15,15) over the plateau. -/
def plateauBuffer : VoxelBuffer :=
  ⟨⟨0, 0, 0⟩, ⟨15, 15, 15⟩, MapgenV5.fillCells plateauNoise flatGen ⟨0, 0, 0⟩ ⟨15, 15, 15⟩⟩


/-! ## Facts about the registry map -/

theorem mapFind_mapAssign_self {F : Type} (m : List (Nat × F)) (key : Nat) (f : F) :
    mapFind (mapAssign m key f) key = some f := by
  induction m with
  | nil => simp [mapAssign, mapFind]
  | cons e rest ih =>
    obtain ⟨k, g⟩ := e
    by_cases h1 : key = k
    · simp [mapAssign, mapFind, h1]
    · by_cases h2 : key < k
      · simp [mapAssign, mapFind, h1, h2]
      · have h3 : ¬ k = key := fun h => h1 h.symm
        simp [mapAssign, mapFind, h1, h2, h3, ih]

theorem mapFind_mapAssign_of_ne {F : Type} (m : List (Nat × F)) (key k : Nat) (f : F)
    (hk : k ≠ key) : mapFind (mapAssign m key f) k = mapFind m k := by
  induction m with
  | nil =>
    have h : ¬ key = k := fun h => hk h.symm
    simp [mapAssign, mapFind, h]
  | cons e rest ih =>
    obtain ⟨k', g⟩ := e
    by_cases h1 : key = k'
    · have h2 : ¬ k' = k := fun h => hk (h.symm.trans h1.symm)
      simp [mapAssign, mapFind, h1, h2]
    · by_cases h2 : key < k'
      · have h3 : ¬ key = k := fun h => hk h.symm
        simp [mapAssign, mapFind, h1, h2, h3]
      · by_cases h3 : k' = k
        · subst h3
          simp [mapAssign, mapFind, h1, h2]
        · simp [mapAssign, mapFind, h1, h2, h3, ih]

theorem toU8_of_lt {t : Nat} (h : t < 256) : toU8 t = t := by
  unfold toU8; exact Nat.mod_eq_of_lt (by simpa using h)

theorem toU16_of_lt {t : Nat} (h : t < 65536) : toU16 t = t := by
  unfold toU16; exact Nat.mod_eq_of_lt (by simpa using h)

namespace ServerActiveObject

/-! ## `create` and `registerType` -/

theorem registerType_of_found {F : Type} (m : List (Nat × F)) (t : Nat) (f g : F)
    (h : mapFind m (toU16 t) = some g) : registerType m t f = m := by
  simp only [registerType, h]

theorem registerType_of_absent {F : Type} (m : List (Nat × F)) (t : Nat) (f : F)
    (h : mapFind m (toU16 t) = none) : registerType m t f = mapAssign m (toU16 t) f := by
  simp only [registerType, h]

/-- Counterexample to C1 as stated: the identifier 257 has no entry in the
example registry, which holds the types 1 and 2. The call of `create` with
257 receives `(u8)257 = 1`, finds the entry of type 1 and runs its factory:
an object is returned, the program state has changed and no warning is
written. -/
theorem create_unknown_type_counterexample :
    mapFind exampleRegistry 257 = none ∧
    (create exampleRegistry 257 () 0 () "ab" 0).object = some 2 ∧
    (create exampleRegistry 257 () 0 () "ab" 0).state = 1 ∧
    (create exampleRegistry 257 () 0 () "ab" 0).effects = [CreateEffect.callFactory 1] ∧
    (create exampleRegistry 257 () 0 () "ab" 0).object ≠ none := by
  refine ⟨rfl, rfl, rfl, rfl, by decide⟩

/-- C1, amended. A type identifier below 256 (one the `u8` parameter of
`create` can hold) without an entry in the registry makes `create` return
`NULL`: the program state is untouched and the only effect is the warning,
so no factory is invoked, in particular not the factory of another
registered type. -/
theorem create_unknown_type {Env Pos σ Obj : Type} (m : List (Nat × Factory Env Pos σ Obj))
    (t : Nat) (env : Env) (id : Nat) (pos : Pos) (data : String) (s : σ)
    (ht : t < 256) (h : mapFind m t = none) :
    create m t env id pos data s = ⟨none, s, [CreateEffect.warnNoFactory t]⟩ := by
  simp only [create, toU8_of_lt ht, h]

/-- Witness of C1 (amended): type 9 in the example registry, which holds types 1 and 2. -/
theorem create_unknown_type_witness :
    create exampleRegistry 9 () 0 () "" 0 = ⟨none, 0, [CreateEffect.warnNoFactory 9]⟩ :=
  create_unknown_type exampleRegistry 9 () 0 () "" 0 (by decide) rfl

/-- Counterexample to C2 as stated: the registry built by
`registerType(44, B)` and `registerType(300, A)` has the entry `A` for the
identifier 300. The call of `create` with 300 receives `(u8)300 = 44` and
returns what `B` returns, not what `A` returns; the two distinct registered
identifiers 44 and 300 are both served by `B`. -/
theorem create_dispatches_counterexample :
    exampleWideRegistry = [(44, exampleFactoryB), (300, exampleFactoryA)] ∧
    mapFind exampleWideRegistry 300 = some exampleFactoryA ∧
    mapFind exampleWideRegistry 44 = some exampleFactoryB ∧
    (exampleFactoryA () () "ab" 0).1 = some 2 ∧
    (exampleFactoryB () () "ab" 0).1 = some 102 ∧
    (create exampleWideRegistry 300 () 0 () "ab" 0).object = some 102 ∧
    (create exampleWideRegistry 300 () 0 () "ab" 0).effects = [CreateEffect.callFactory 44] ∧
    (create exampleWideRegistry 44 () 0 () "ab" 0).object = some 102 ∧
    (create exampleWideRegistry 300 () 0 () "ab" 0).object ≠ (exampleFactoryA () () "ab" 0).1 := by
  refine ⟨rfl, rfl, rfl, rfl, rfl, rfl, rfl, rfl, by decide⟩

/-- C2, amended. A type identifier `t` below 256 (one the `u8` parameter of
`create` can hold) with the entry `f` makes `create` return exactly what
`f env pos data` returns, in the state `f` leaves, after the single call of
the factory stored under `t`, whatever `id` is. Hence two distinct
registered identifiers below 256 are dispatched each to its own factory. -/
theorem create_dispatches {Env Pos σ Obj : Type} (m : List (Nat × Factory Env Pos σ Obj))
    (env : Env) (pos : Pos) (data : String) (s : σ) :
    (∀ (t : Nat) (f : Factory Env Pos σ Obj) (id : Nat), t < 256 → mapFind m t = some f →
      create m t env id pos data s
        = ⟨(f env pos data s).1, (f env pos data s).2, [CreateEffect.callFactory t]⟩) ∧
    (∀ (t1 t2 : Nat) (f1 f2 : Factory Env Pos σ Obj) (id1 id2 : Nat),
      t1 < 256 → t2 < 256 → t1 ≠ t2 → mapFind m t1 = some f1 → mapFind m t2 = some f2 →
      (create m t1 env id1 pos data s).object = (f1 env pos data s).1 ∧
      (create m t2 env id2 pos data s).object = (f2 env pos data s).1) := by
  have key : ∀ (t : Nat) (f : Factory Env Pos σ Obj) (id : Nat), t < 256 →
      mapFind m t = some f →
      create m t env id pos data s
        = ⟨(f env pos data s).1, (f env pos data s).2, [CreateEffect.callFactory t]⟩ := by
    intro t f id ht h
    simp only [create, toU8_of_lt ht, h]
  refine ⟨key, ?_⟩
  intro t1 t2 f1 f2 id1 id2 h1 h2 _ hf1 hf2
  rw [key t1 f1 id1 h1 hf1, key t2 f2 id2 h2 hf2]
  exact ⟨rfl, rfl⟩

/-- Witness of C2 (amended): types 1 and 2 of the example registry reach their own
factories, which return different objects for the same arguments. -/
theorem create_dispatches_witness :
    (create exampleRegistry 1 () 7 () "ab" 0).object = some 2 ∧
    (create exampleRegistry 2 () 7 () "ab" 0).object = some 102 :=
  (create_dispatches exampleRegistry () () "ab" 0).2 1 2 exampleFactoryA exampleFactoryB 7 7
    (by decide) (by decide) (by decide) rfl rfl

/-- Counterexample to C3 as stated: 300 is a 16-bit identifier without an
entry in the empty registry; after `registerType(300, f)` the call of
`create` with 300 receives `(u8)300 = 44`, finds no entry and returns `NULL`,
while `f` returns an object. -/
theorem register_then_create_counterexample :
    (300 : Nat) < 65536 ∧
    mapFind ([] : List (Nat × Factory Unit Unit Nat Nat)) 300 = none ∧
    (create (registerType [] 300 exampleFactoryA) 300 () 0 () "ab" 0).object = none ∧
    (exampleFactoryA () () "ab" 0).1 = some 2 := by
  refine ⟨by decide, rfl, rfl, rfl⟩

/-- C3, amended. For an identifier `t` below 256 (one the `u8` parameter of
`create` can hold) without an entry in the registry, after
`registerType(t, f)` a call of `create` with `t` returns what
`f env pos data` returns. -/
theorem register_then_create {Env Pos σ Obj : Type} (m : List (Nat × Factory Env Pos σ Obj))
    (t : Nat) (f : Factory Env Pos σ Obj) (env : Env) (id : Nat) (pos : Pos)
    (data : String) (s : σ) (ht : t < 256) (h : mapFind m t = none) :
    create (registerType m t f) t env id pos data s
      = ⟨(f env pos data s).1, (f env pos data s).2, [CreateEffect.callFactory t]⟩ := by
  have ht16 : toU16 t = t := toU16_of_lt (by omega)
  have hreg : mapFind (registerType m t f) t = some f := by
    rw [registerType_of_absent m t f (by rw [ht16]; exact h), ht16]
    exact mapFind_mapAssign_self m t f
  simp only [create, toU8_of_lt ht, hreg]

/-- Witness of C3 (amended): type 3 is registered in the example registry and
then selected. -/
theorem register_then_create_witness :
    create (registerType exampleRegistry 3 exampleFactoryB) 3 () 0 () "ab" 5
      = ⟨some 102, 6, [CreateEffect.callFactory 3]⟩ :=
  register_then_create exampleRegistry 3 exampleFactoryB () 0 () "ab" 5 (by decide) rfl

/-- C4. `registerType` never changes an existing registration: every
identifier with an entry keeps its factory, and registering an identifier
(a value of the `u16` parameter) that already has an entry leaves the whole
registry unchanged. -/
theorem registerType_keeps_entries {F : Type} (m : List (Nat × F)) (t : Nat) (f : F) :
    (∀ (k : Nat) (g : F), mapFind m k = some g → mapFind (registerType m t f) k = some g) ∧
    (t < 65536 → mapFind m t ≠ none → registerType m t f = m) := by
  constructor
  · intro k g hk
    cases hfind : mapFind m (toU16 t) with
    | some g' => rw [registerType_of_found m t f g' hfind]; exact hk
    | none =>
      have hne : k ≠ toU16 t := by
        intro heq
        rw [heq, hfind] at hk
        exact Option.noConfusion hk
      rw [registerType_of_absent m t f hfind, mapFind_mapAssign_of_ne m (toU16 t) k f hne]
      exact hk
  · intro ht hfound
    cases hfind : mapFind m t with
    | some g' =>
      exact registerType_of_found m t f g' (by rw [toU16_of_lt ht]; exact hfind)
    | none => exact absurd hfind hfound

/-- Witness of C4: registering type 1 again, with another factory, leaves the
example registry as it was. -/
theorem registerType_keeps_entries_witness :
    registerType exampleRegistry 1 exampleFactoryB = exampleRegistry :=
  (registerType_keeps_entries exampleRegistry 1 exampleFactoryB).2 (by decide)
    (by simp [exampleRegistry, mapFind])

end ServerActiveObject


/-! ## The map constants -/

theorem ldiff_fifteen (m : Nat) : Nat.ldiff 15 m = 15 - m % 16 := by
  have hlt : m % 2 ^ 4 < 2 ^ 4 := Nat.mod_lt _ (by norm_num)
  have e : 15 - m % 16 = 2 ^ 4 - (m % 2 ^ 4 + 1) := by norm_num; omega
  rw [e]
  apply Nat.eq_of_testBit_eq
  intro i
  have e15 : (15 : Nat) = 2 ^ 4 - 1 := by norm_num
  rw [Nat.testBit_ldiff, Nat.testBit_two_pow_sub_succ hlt, Nat.testBit_mod_two_pow, e15,
    Nat.testBit_two_pow_sub_one]
  by_cases h : i < 4 <;> simp [h]

theorem land_fifteen (c : Int) : Int.land c 15 = c % 16 := by
  cases c with
  | ofNat n =>
    show ((n &&& 15 : Nat) : Int) = _
    have h := Nat.and_pow_two_sub_one_eq_mod n 4
    norm_num at h
    rw [h]; rfl
  | negSucc m =>
    show ((Nat.ldiff 15 m : Nat) : Int) = _
    rw [ldiff_fifteen]
    have hlt : m % 16 < 16 := Nat.mod_lt _ (by norm_num)
    rw [Int.negSucc_emod m (by norm_num : (0 : Int) < 16)]
    omega

theorem lowBlockBits_eq_emod (c : Int) : lowBlockBits c = c % 16 := by
  have h : ((MAP_BLOCKSIZE : Int) - 1) = 15 := by decide
  unfold lowBlockBits
  rw [h]
  exact land_fifteen c

/-- C7. The chunk edge length `MAP_BLOCKSIZE = 1 << MAP_BLOCKP` with
`MAP_BLOCKP = 4` is 16, a power of two, and an integer coordinate is aligned
to it exactly when its low `MAP_BLOCKP` bits are zero, that is when
`c mod 16 = 0`. -/
theorem map_blocksize_sixteen :
    MAP_BLOCKP = 4 ∧ MAP_BLOCKSIZE = 16 ∧ MAP_BLOCKSIZE = 2 ^ MAP_BLOCKP ∧
    ∀ c : Int, (chunkAligned c ↔ lowBlockBits c = 0) ∧ (chunkAligned c ↔ c % 16 = 0) := by
  refine ⟨rfl, by decide, by decide, ?_⟩
  intro c
  have h16 : (MAP_BLOCKSIZE : Int) = 16 := by decide
  have hmod : chunkAligned c ↔ c % 16 = 0 := by
    unfold chunkAligned
    rw [h16]
    exact Int.dvd_iff_emod_eq_zero
  exact ⟨by rw [lowBlockBits_eq_emod]; exact hmod, hmod⟩


/-! ## Facts about inventories -/

namespace Inventory

theorem findList_some {Item : Type} (ls : List (InventoryList Item)) (name : String)
    (j : Nat) (h : findList ls name = some j) :
    ∃ l, ls[j]? = some l ∧ l.name = name := by
  induction ls generalizing j with
  | nil => simp [findList] at h
  | cons l rest ih =>
    by_cases hn : l.name = name
    · simp [findList, hn] at h
      subst h
      exact ⟨l, by simp, hn⟩
    · simp only [findList, hn, if_false] at h
      cases hr : findList rest name with
      | none => rw [hr] at h; simp at h
      | some j' =>
        rw [hr] at h
        simp at h
        subst h
        obtain ⟨l', h1, h2⟩ := ih j' hr
        exact ⟨l', by simpa using h1, h2⟩

theorem findList_set {Item : Type} (ls : List (InventoryList Item))
    (j : Nat) (l l' : InventoryList Item) (hj : ls[j]? = some l) (hname : l'.name = l.name)
    (name' : String) : findList (ls.set j l') name' = findList ls name' := by
  induction ls generalizing j with
  | nil => simp at hj
  | cons a rest ih =>
    cases j with
    | zero =>
      simp at hj
      subst hj
      simp [findList, hname]
    | succ j' =>
      simp at hj
      simp [findList, ih j' hj]

theorem getList_putList {Item : Type} (inv : Inventory Item) (name : String)
    (l l' : InventoryList Item) (h : inv.getList name = some l) (hname : l'.name = l.name) :
    (inv.putList name l').getList name = some l' := by
  unfold getList at h
  cases hf : findList inv.m_lists name with
  | none => rw [hf] at h; simp at h
  | some j =>
    rw [hf] at h
    simp only at h
    have hlt : j < inv.m_lists.length := by
      rcases Nat.lt_or_ge j inv.m_lists.length with hlt | hge
      · exact hlt
      · rw [List.getElem?_eq_none hge] at h; simp at h
    have hfs : findList (inv.m_lists.set j l') name = some j := by
      rw [findList_set inv.m_lists j l l' h hname name]; exact hf
    simp only [putList, hf, getList, hfs]
    exact List.getElem?_set_self (by simpa using hlt)

end Inventory

namespace InventoryList

theorem changeItem_name {Item : Type} (l : InventoryList Item) (i : Nat) (item : Item) :
    (l.changeItem i item).name = l.name := by
  unfold changeItem
  split <;> rfl

theorem changeItem_getSize {Item : Type} (l : InventoryList Item) (i : Nat) (item : Item) :
    (l.changeItem i item).getSize = l.getSize := by
  unfold changeItem getSize
  split <;> simp

theorem changeItem_items {Item : Type} (l : InventoryList Item) (i : Nat) (item : Item) :
    (l.changeItem i item).m_items = l.m_items.set i item := by
  unfold changeItem
  split
  · rename_i h
    exact (List.set_eq_of_length_le h).symm
  · rfl

end InventoryList

theorem toS32_of_lt {n : Nat} (h : n < 2 ^ 31) : toS32 n = (n : Int) := by
  have h1 : n % 2 ^ 32 = n := Nat.mod_eq_of_lt (by omega)
  unfold toS32
  rw [h1, if_pos h]

theorem toU32_of_nonneg {i : Int} (h0 : 0 ≤ i) (h1 : i < 2 ^ 32) : toU32 i = i.toNat := by
  unfold toU32
  rw [Int.emod_eq_of_lt h0 h1]


namespace ServerActiveObject

/-! ## `getWieldedItem` and `setWieldedItem` -/

theorem setWieldedItem_of_list {Item : Type} (obj : ServerActiveObject Item) (item : Item)
    (inv : Inventory Item) (l : InventoryList Item) (hinv : obj.inventory = some inv)
    (hl : inv.getList obj.wieldList = some l) :
    setWieldedItem obj item =
      (true, { obj with
        inventory := some (inv.putList obj.wieldList
          (l.changeItem (toU32 obj.wieldIndex) item)),
        inventoryModified := true }) := by
  simp only [setWieldedItem, hinv, hl]

theorem setWieldedItem_of_no_list {Item : Type} (obj : ServerActiveObject Item) (item : Item)
    (h : wieldListOf obj = none) : setWieldedItem obj item = (false, obj) := by
  unfold wieldListOf at h
  cases hinv : obj.inventory with
  | none => simp only [setWieldedItem, hinv]
  | some inv =>
    rw [hinv] at h
    simp only at h
    simp only [setWieldedItem, hinv, h]

theorem wieldListOf_some {Item : Type} (obj : ServerActiveObject Item)
    (l : InventoryList Item) (h : wieldListOf obj = some l) :
    ∃ inv, obj.inventory = some inv ∧ inv.getList obj.wieldList = some l := by
  unfold wieldListOf at h
  cases hinv : obj.inventory with
  | none => rw [hinv] at h; simp at h
  | some inv => rw [hinv] at h; exact ⟨inv, rfl, h⟩

/-- Without an inventory, without the wield list, or with a wield index at or
beyond the size of the list, `getWieldedItem` returns the empty item; with a
wield index from 0 up to the size it returns the item stored there. (Lists
of fewer than `2 ^ 31` items.) -/
theorem getWieldedItem_of_nonneg {Item : Type} [Inhabited Item]
    (obj : ServerActiveObject Item) (h0 : 0 ≤ obj.wieldIndex)
    (h32 : obj.wieldIndex < 2 ^ 31) :
    (wieldListOf obj = none → getWieldedItem obj = some default) ∧
    (∀ l, wieldListOf obj = some l → l.getSize < 2 ^ 31 →
      ((l.getSize : Int) ≤ obj.wieldIndex → getWieldedItem obj = some default) ∧
      (obj.wieldIndex < l.getSize →
        getWieldedItem obj = l.m_items[obj.wieldIndex.toNat]? ∧
        (getWieldedItem obj).isSome = true)) := by
  constructor
  · intro h
    unfold wieldListOf at h
    cases hinv : obj.inventory with
    | none => simp only [getWieldedItem, hinv]
    | some inv =>
      rw [hinv] at h
      simp only at h
      simp only [getWieldedItem, hinv, h]
  · intro l hl hsize
    obtain ⟨inv, hinv, hget⟩ := wieldListOf_some obj l hl
    constructor
    · intro hge
      have hnot : ¬ obj.wieldIndex < toS32 l.getSize := by
        rw [toS32_of_lt hsize]; omega
      simp only [getWieldedItem, hinv, hget, hnot, if_false]
    · intro hlt
      have hyes : obj.wieldIndex < toS32 l.getSize := by
        rw [toS32_of_lt hsize]; exact hlt
      have hu : toU32 obj.wieldIndex = obj.wieldIndex.toNat :=
        toU32_of_nonneg h0 (by omega)
      have hval : getWieldedItem obj = l.m_items[obj.wieldIndex.toNat]? := by
        simp only [getWieldedItem, hinv, hget, hyes, if_true, InventoryList.getItem, hu]
      refine ⟨hval, ?_⟩
      rw [hval]
      have hi : obj.wieldIndex.toNat < l.m_items.length := by
        have : obj.wieldIndex.toNat < l.getSize := by omega
        exact this
      rw [List.getElem?_eq_getElem hi]
      rfl

/-- A negative wield index passes the test `getWieldIndex() < (s32)list->getSize()`;
the index handed to `getItem` is then `2 ^ 32 + index`, which is no position
of a list of fewer than `2 ^ 31` items. -/
theorem getWieldedItem_of_neg {Item : Type} [Inhabited Item]
    (obj : ServerActiveObject Item) (l : InventoryList Item)
    (hl : wieldListOf obj = some l) (hsize : l.getSize < 2 ^ 31)
    (hneg : obj.wieldIndex < 0) (hmin : -2 ^ 31 ≤ obj.wieldIndex) :
    getWieldedItem obj = none := by
  obtain ⟨inv, hinv, hget⟩ := wieldListOf_some obj l hl
  have hyes : obj.wieldIndex < toS32 l.getSize := by
    rw [toS32_of_lt hsize]; omega
  have hu : l.m_items.length ≤ toU32 obj.wieldIndex := by
    have h1 : obj.wieldIndex % 2 ^ 32 = obj.wieldIndex + 2 ^ 32 := by
      rw [← Int.add_emod_self]
      exact Int.emod_eq_of_lt (by omega) (by omega)
    have h2 : l.m_items.length < 2 ^ 31 := hsize
    unfold toU32
    rw [h1]
    omega
  simp only [getWieldedItem, hinv, hget, hyes, if_true, InventoryList.getItem]
  exact List.getElem?_eq_none hu

/-- Counterexample to C8 as stated: the wield list "main" holds one item and
the wield index is 1. `setWieldedItem 7` returns `true` and stores nothing;
the following `getWieldedItem` returns the empty item 0, not 7. -/
theorem wielded_roundtrip_counterexample :
    (setWieldedItem exampleObjectPastEnd 7).1 = true ∧
    getWieldedItem (setWieldedItem exampleObjectPastEnd 7).2 = some 0 ∧
    getWieldedItem (setWieldedItem exampleObjectPastEnd 7).2 ≠ some 7 := by
  refine ⟨rfl, rfl, by decide⟩

/-- C8, amended. When the wield index is a position of the wield list (from 0
up to its size, the list holding fewer than `2 ^ 31` items) and
`setWieldedItem item` returns `true`, the following `getWieldedItem` returns
that item. -/
theorem wielded_roundtrip {Item : Type} [Inhabited Item] (obj : ServerActiveObject Item)
    (item : Item) (l : InventoryList Item) (hl : wieldListOf obj = some l)
    (h0 : 0 ≤ obj.wieldIndex) (h1 : obj.wieldIndex < l.getSize) (h2 : l.getSize < 2 ^ 31)
    (_hret : (setWieldedItem obj item).1 = true) :
    getWieldedItem (setWieldedItem obj item).2 = some item := by
  obtain ⟨inv, hinv, hget⟩ := wieldListOf_some obj l hl
  have hu : toU32 obj.wieldIndex = obj.wieldIndex.toNat := toU32_of_nonneg h0 (by omega)
  have hi : obj.wieldIndex.toNat < l.m_items.length := by
    have : obj.wieldIndex.toNat < l.getSize := by omega
    exact this
  rw [setWieldedItem_of_list obj item inv l hinv hget, hu]
  have hget' : (inv.putList obj.wieldList (l.changeItem obj.wieldIndex.toNat item)).getList
      obj.wieldList = some (l.changeItem obj.wieldIndex.toNat item) :=
    Inventory.getList_putList inv obj.wieldList l _ hget (InventoryList.changeItem_name l _ item)
  have hyes : obj.wieldIndex < toS32 (l.changeItem obj.wieldIndex.toNat item).getSize := by
    rw [InventoryList.changeItem_getSize, toS32_of_lt h2]; exact h1
  simp only [getWieldedItem, hget', hyes, if_true, InventoryList.getItem, hu,
    InventoryList.changeItem_items]
  exact List.getElem?_set_self hi

/-- Witness of C8 (amended): the wield index 1 of a two-item wield list. -/
theorem wielded_roundtrip_witness :
    getWieldedItem (setWieldedItem exampleObject 7).2 = some 7 :=
  wielded_roundtrip exampleObject 7 ⟨"main", [5, 6]⟩ rfl (by decide) (by decide) (by decide) rfl

/-- C9 at a failing input: the wield list "main" holds one item and the wield
index is -1. `getWieldedItem` does not return the empty item: the index
passes the size test and the read `getItem(4294967295)` is outside the list. -/
theorem getWieldedItem_negative_index_reads_outside :
    wieldListOf exampleObjectNegative = some ⟨"main", [5]⟩ ∧
    exampleObjectNegative.wieldIndex = -1 ∧
    toU32 exampleObjectNegative.wieldIndex = 4294967295 ∧
    getWieldedItem exampleObjectNegative = none ∧
    getWieldedItem exampleObjectNegative ≠ some default := by
  refine ⟨rfl, rfl, by decide, rfl, by decide⟩


theorem itemAt_setWieldedItem {Item : Type} (obj : ServerActiveObject Item) (item : Item)
    (inv : Inventory Item) (l : InventoryList Item) (hinv : obj.inventory = some inv)
    (hl : inv.getList obj.wieldList = some l) (j i : Nat)
    (hdiff : itemAt (setWieldedItem obj item).2 j i ≠ itemAt obj j i) :
    Inventory.findList inv.m_lists obj.wieldList = some j ∧ i = toU32 obj.wieldIndex ∧
      itemAt (setWieldedItem obj item).2 j i = some item := by
  rw [setWieldedItem_of_list obj item inv l hinv hl] at hdiff ⊢
  unfold Inventory.getList at hl
  cases hf : Inventory.findList inv.m_lists obj.wieldList with
  | none => rw [hf] at hl; simp at hl
  | some j0 =>
    rw [hf] at hl
    simp only at hl
    simp only [itemAt, hinv, Inventory.itemAt, Inventory.putList, hf] at hdiff
    by_cases hj : j0 = j
    · subst hj
      have hlt : j0 < inv.m_lists.length := by
        rcases Nat.lt_or_ge j0 inv.m_lists.length with hlt | hge
        · exact hlt
        · rw [List.getElem?_eq_none hge] at hl; simp at hl
      rw [List.getElem?_set_self hlt, hl] at hdiff
      simp only [InventoryList.changeItem_items] at hdiff
      by_cases hi : toU32 obj.wieldIndex = i
      · subst hi
        by_cases hlen : toU32 obj.wieldIndex < l.m_items.length
        · refine ⟨rfl, rfl, ?_⟩
          simp only [itemAt, Inventory.itemAt, Inventory.putList, hf]
          rw [List.getElem?_set_self hlt]
          simp only [InventoryList.changeItem_items]
          exact List.getElem?_set_self hlen
        · rw [List.set_eq_of_length_le (Nat.le_of_not_lt hlen)] at hdiff
          exact absurd rfl hdiff
      · rw [List.getElem?_set_ne hi] at hdiff
        exact absurd rfl hdiff
    · rw [List.getElem?_set_ne hj] at hdiff
      exact absurd rfl hdiff

/-- C10. `setWieldedItem` returns `true` exactly when the object has an
inventory that contains the wield list. When it returns `false` the object
(inventory and modified flag) is unchanged. When it returns `true` the
inventory is marked modified, and a position `i` of a list `j` whose content
differs afterwards is the wield index of the wield list, where the item now
is. -/
theorem setWieldedItem_effect {Item : Type} (obj : ServerActiveObject Item) (item : Item) :
    ((setWieldedItem obj item).1 = true ↔
      ∃ inv l, obj.inventory = some inv ∧ inv.getList obj.wieldList = some l) ∧
    ((setWieldedItem obj item).1 = false → (setWieldedItem obj item).2 = obj) ∧
    ((setWieldedItem obj item).1 = true →
      (setWieldedItem obj item).2.inventoryModified = true ∧
      (setWieldedItem obj item).2.inventory.isSome = true ∧
      ∀ j i : Nat, itemAt (setWieldedItem obj item).2 j i ≠ itemAt obj j i →
        (∃ inv, obj.inventory = some inv ∧
          Inventory.findList inv.m_lists obj.wieldList = some j) ∧
        i = toU32 obj.wieldIndex ∧
        itemAt (setWieldedItem obj item).2 j i = some item) := by
  cases hw : wieldListOf obj with
  | none =>
    have hset := setWieldedItem_of_no_list obj item hw
    refine ⟨?_, ?_, ?_⟩
    · constructor
      · intro h; rw [hset] at h; exact Bool.noConfusion h
      · rintro ⟨inv, l, hinv, hl⟩
        have : wieldListOf obj = some l := by
          simp only [wieldListOf, hinv, hl]
        rw [hw] at this
        exact Option.noConfusion this
    · intro _; rw [hset]
    · intro h; rw [hset] at h; exact Bool.noConfusion h
  | some l =>
    obtain ⟨inv, hinv, hl⟩ := wieldListOf_some obj l hw
    have hset := setWieldedItem_of_list obj item inv l hinv hl
    refine ⟨?_, ?_, ?_⟩
    · constructor
      · intro _; exact ⟨inv, l, hinv, hl⟩
      · intro _; rw [hset]
    · intro h; rw [hset] at h; exact Bool.noConfusion h
    · intro _
      refine ⟨by rw [hset], by rw [hset]; rfl, ?_⟩
      intro j i hdiff
      obtain ⟨h1, h2, h3⟩ := itemAt_setWieldedItem obj item inv l hinv hl j i hdiff
      exact ⟨⟨inv, hinv, h1⟩, h2, h3⟩

/-- Witness of C10: on the example object the call returns `true`, marks the
inventory modified and puts the item at position 1 of the second list. -/
theorem setWieldedItem_effect_witness :
    (setWieldedItem exampleObject 7).1 = true ∧
    (setWieldedItem exampleObject 7).2.inventoryModified = true ∧
    itemAt (setWieldedItem exampleObject 7).2 1 1 = some 7 :=
  ⟨rfl, ((setWieldedItem_effect exampleObject 7).2.2 rfl).1,
    (((setWieldedItem_effect exampleObject 7).2.2 rfl).2.2 1 1 (by decide)).2.2⟩

end ServerActiveObject


/-! ## Facts about the voxel buffer layout -/

theorem extent_cast {lo hi : Int} (h : lo ≤ hi) : ((extent lo hi : Nat) : Int) = hi - lo + 1 := by
  unfold extent
  exact Int.toNat_of_nonneg (by omega)

theorem extent_pos_cast {lo hi : Int} (h : 0 < extent lo hi) :
    ((extent lo hi : Nat) : Int) = hi - lo + 1 := by
  unfold extent at h ⊢
  have : 0 < hi - lo + 1 := by
    by_contra hc
    have : (hi - lo + 1).toNat = 0 := Int.toNat_eq_zero.mpr (by omega)
    omega
  exact Int.toNat_of_nonneg (by omega)

theorem index_decode (ex ey dx dy dz : Nat) (hx : dx < ex) (hy : dy < ey) :
    (dz * (ex * ey) + dy * ex + dx) % ex = dx ∧
    (dz * (ex * ey) + dy * ex + dx) / ex % ey = dy ∧
    (dz * (ex * ey) + dy * ex + dx) / (ex * ey) = dz := by
  have hex : 0 < ex := by omega
  have hey : 0 < ey := by omega
  have e : dz * (ex * ey) + dy * ex + dx = dx + ex * (dz * ey + dy) := by ring
  have hdiv : (dx + ex * (dz * ey + dy)) / ex = dz * ey + dy := by
    rw [Nat.add_mul_div_left _ _ hex, Nat.div_eq_of_lt hx, Nat.zero_add]
  have e2 : dz * ey + dy = dy + ey * dz := by ring
  refine ⟨?_, ?_, ?_⟩
  · rw [e, Nat.add_mul_mod_self_left, Nat.mod_eq_of_lt hx]
  · rw [e, hdiv, e2, Nat.add_mul_mod_self_left, Nat.mod_eq_of_lt hy]
  · rw [← Nat.div_div_eq_div_mul, e, hdiv, e2, Nat.add_mul_div_left _ _ hey,
      Nat.div_eq_of_lt hy, Nat.zero_add]

theorem index_lt (ex ey ez dx dy dz : Nat) (hx : dx < ex) (hy : dy < ey) (hz : dz < ez) :
    dz * (ex * ey) + dy * ex + dx < ex * ey * ez := by
  have h1 : dz * (ex * ey) + dy * ex + dx < (dz * ey + dy + 1) * ex := by
    have : (dz * ey + dy + 1) * ex = dz * (ex * ey) + dy * ex + ex := by ring
    omega
  have h2 : dz * ey + dy + 1 ≤ ey * ez := by
    have : (dz + 1) * ey ≤ ez * ey := Nat.mul_le_mul_right ey hz
    have e : (dz + 1) * ey = dz * ey + ey := by ring
    have e' : ez * ey = ey * ez := Nat.mul_comm _ _
    omega
  calc dz * (ex * ey) + dy * ex + dx < (dz * ey + dy + 1) * ex := h1
    _ ≤ (ey * ez) * ex := Nat.mul_le_mul_right ex h2
    _ = ex * ey * ez := by ring

namespace MapgenV5

theorem fillCells_getElem (N : NoiseField) (mg : MapgenV5) (a b : v3s16) (i : Nat)
    (hi : i < extent a.X b.X * extent a.Y b.Y * extent a.Z b.Z) :
    (fillCells N mg a b)[i]? =
      some (cellAt N mg (a.X + (i % extent a.X b.X : Nat))
        (a.Y + (i / extent a.X b.X % extent a.Y b.Y : Nat))
        (a.Z + (i / (extent a.X b.X * extent a.Y b.Y) : Nat))) := by
  unfold fillCells
  simp only [List.getElem?_map, List.getElem?_range hi, Option.map_some']

/-- Inside the range the buffer made by `makeChunk` holds, at every position,
the content the column rules give that cell. -/
theorem get_makeChunk (N : NoiseField) (mg : MapgenV5) (a b : v3s16) (buf : VoxelBuffer)
    (h : makeChunk N mg a b = Except.ok buf) (p : v3s16) (hp : buf.contains p) :
    buf.get p = cellAt N mg p.X p.Y p.Z := by
  unfold makeChunk at h
  split at h
  · injection h with h
    subst h
    obtain ⟨⟨hx0, hx1⟩, ⟨hy0, hy1⟩, ⟨hz0, hz1⟩⟩ := hp
    simp only at hx0 hx1 hy0 hy1 hz0 hz1
    have cx := extent_cast (le_trans hx0 hx1)
    have cy := extent_cast (le_trans hy0 hy1)
    have cz := extent_cast (le_trans hz0 hz1)
    have dx : (p.X - a.X).toNat < extent a.X b.X := by omega
    have dy : (p.Y - a.Y).toNat < extent a.Y b.Y := by omega
    have dz : (p.Z - a.Z).toNat < extent a.Z b.Z := by omega
    have hcont : VoxelBuffer.contains ⟨a, b, fillCells N mg a b⟩ p :=
      ⟨⟨hx0, hx1⟩, ⟨hy0, hy1⟩, ⟨hz0, hz1⟩⟩
    obtain ⟨d1, d2, d3⟩ := index_decode (extent a.X b.X) (extent a.Y b.Y)
      (p.X - a.X).toNat (p.Y - a.Y).toNat (p.Z - a.Z).toNat dx dy
    have hlt := index_lt (extent a.X b.X) (extent a.Y b.Y) (extent a.Z b.Z)
      (p.X - a.X).toNat (p.Y - a.Y).toNat (p.Z - a.Z).toNat dx dy dz
    simp only [VoxelBuffer.get, hcont, if_true, VoxelBuffer.index, VoxelBuffer.zstride,
      VoxelBuffer.ystride]
    rw [fillCells_getElem N mg a b _ hlt, d1, d2, d3]
    have ex : a.X + ((p.X - a.X).toNat : Int) = p.X := by omega
    have ey : a.Y + ((p.Y - a.Y).toNat : Int) = p.Y := by omega
    have ez : a.Z + ((p.Z - a.Z).toNat : Int) = p.Z := by omega
    rw [ex, ey, ez]
    rfl
  · exact Except.noConfusion h


/-! ## The generated columns -/

theorem columnCell_isSome (mg : MapgenV5) (b : Biome) (h y : Int) :
    (columnCell mg b h y).isSome = true ↔ y ≤ max h mg.params.seaLevel := by
  unfold columnCell
  by_cases h1 : y ≤ h
  · simp [h1]
  · by_cases h2 : y ≤ mg.params.seaLevel
    · simp [h1, h2]
    · simp [h1, h2]

theorem makeChunk_edges (N : NoiseField) (mg : MapgenV5) (a b : v3s16) (buf : VoxelBuffer)
    (h : makeChunk N mg a b = Except.ok buf) :
    buf.MinEdge = a ∧ buf.MaxEdge = b ∧ validRange a b := by
  unfold makeChunk at h
  split at h
  · rename_i hv
    injection h with h
    subst h
    exact ⟨rfl, rfl, hv⟩
  · exact Except.noConfusion h

theorem topFilledFrom_makeChunk (N : NoiseField) (mg : MapgenV5) (a b : v3s16)
    (buf : VoxelBuffer) (h : makeChunk N mg a b = Except.ok buf) (x z : Int)
    (hx : between a.X b.X x) (hz : between a.Z b.Z z) (k : Nat)
    (hk : k ≤ extent a.Y b.Y) :
    buf.topFilledFrom x z k =
      if k = 0 ∨ max (baseHeight N mg x z) mg.params.seaLevel < a.Y then none
      else some (min (max (baseHeight N mg x z) mg.params.seaLevel) (a.Y + k - 1)) := by
  obtain ⟨hmin, hmax, hv⟩ := makeChunk_edges N mg a b buf h
  have hy : a.Y ≤ b.Y := hv.2.2.1.2.1
  have cy := extent_cast hy
  induction k with
  | zero => simp [VoxelBuffer.topFilledFrom]
  | succ k ih =>
    have ih := ih (by omega)
    have hcont : buf.contains ⟨x, buf.MinEdge.Y + k, z⟩ := by
      unfold VoxelBuffer.contains between
      rw [hmin, hmax]
      unfold between at hx hz
      refine ⟨hx, ⟨by simp, ?_⟩, hz⟩
      show a.Y + (k : Int) ≤ b.Y
      omega
    have hget := get_makeChunk N mg a b buf h ⟨x, buf.MinEdge.Y + k, z⟩ hcont
    simp only at hget
    have hsome := columnCell_isSome mg (biomeAt N mg x z) (baseHeight N mg x z)
      (buf.MinEdge.Y + k)
    unfold VoxelBuffer.topFilledFrom
    rw [hget]
    unfold cellAt
    generalize max (baseHeight N mg x z) mg.params.seaLevel = t at ih hsome ⊢
    rw [hmin] at hsome ⊢
    by_cases hle : a.Y + (k : Int) ≤ t
    · rw [if_pos (hsome.mpr hle)]
      have h1 : ¬ (k + 1 = 0 ∨ t < a.Y) := by omega
      rw [if_neg h1]
      congr 1
      omega
    · have hns : ¬ (columnCell mg (biomeAt N mg x z) (baseHeight N mg x z)
          (a.Y + (k : Int))).isSome = true := fun hc => hle (hsome.mp hc)
      rw [if_neg hns, ih]
      by_cases hlow : t < a.Y
      · rw [if_pos (Or.inr hlow), if_pos (Or.inr hlow)]
      · have hk0 : k ≠ 0 := by
          intro h0; subst h0; simp at hle; omega
        have h1 : ¬ (k = 0 ∨ t < a.Y) := by omega
        have h2 : ¬ (k + 1 = 0 ∨ t < a.Y) := by omega
        rw [if_neg h1, if_neg h2]
        congr 1
        push_cast
        omega

/-- The top filled voxel of a column of a generated buffer: the higher of the
base height and the sea level, cut off at the top of the range; none when
both lie below the range. -/
theorem topFilled_makeChunk (N : NoiseField) (mg : MapgenV5) (a b : v3s16)
    (buf : VoxelBuffer) (h : makeChunk N mg a b = Except.ok buf) (x z : Int)
    (hx : between a.X b.X x) (hz : between a.Z b.Z z) :
    buf.topFilled x z =
      if max (baseHeight N mg x z) mg.params.seaLevel < a.Y then none
      else some (min (max (baseHeight N mg x z) mg.params.seaLevel) b.Y) := by
  obtain ⟨hmin, hmax, hv⟩ := makeChunk_edges N mg a b buf h
  have hy : a.Y ≤ b.Y := hv.2.2.1.2.1
  have cy := extent_cast hy
  unfold VoxelBuffer.topFilled
  rw [hmin, hmax, topFilledFrom_makeChunk N mg a b buf h x z hx hz _ (le_refl _)]
  have hk0 : extent a.Y b.Y ≠ 0 := by omega
  by_cases hlow : max (baseHeight N mg x z) mg.params.seaLevel < a.Y
  · rw [if_pos (Or.inr hlow), if_pos hlow]
  · have h1 : ¬ (extent a.Y b.Y = 0 ∨
        max (baseHeight N mg x z) mg.params.seaLevel < a.Y) := by
      rintro (h0 | h0)
      · exact hk0 h0
      · exact hlow h0
    rw [if_neg h1, if_neg hlow]
    congr 2
    omega


/-! ## Height consistency -/

theorem makeChunk_flat :
    makeChunk flatNoise flatGen ⟨0, 0, 0⟩ ⟨15, 15, 15⟩ = Except.ok flatBuffer := by
  unfold makeChunk
  rw [if_pos (by decide)]
  rfl

theorem makeChunk_plateau :
    makeChunk plateauNoise flatGen ⟨0, 0, 0⟩ ⟨15, 15, 15⟩ = Except.ok plateauBuffer := by
  unfold makeChunk
  rw [if_pos (by decide)]
  rfl

/-- Counterexample to C5 as stated, the flat scenario: sea level 1, constant
height 0, range (0,0,0) to (15,15,15). The column (0, 0) holds stone at
height 0, water at height 1 and air at height 2: its top filled voxel is at
height 1, while the ground level of the column is 0. -/
theorem height_consistency_counterexample :
    makeChunk flatNoise flatGen ⟨0, 0, 0⟩ ⟨15, 15, 15⟩ = Except.ok flatBuffer ∧
    flatBuffer.get ⟨0, 0, 0⟩ = some flatGen.c_stone ∧
    flatBuffer.get ⟨0, 1, 0⟩ = some flatGen.c_water_source ∧
    flatBuffer.get ⟨0, 2, 0⟩ = none ∧
    flatBuffer.topFilled 0 0 = some 1 ∧
    getGroundLevelAtPoint flatNoise flatGen ⟨0, 0⟩ = 0 ∧
    flatBuffer.topFilled 0 0 ≠ some (getGroundLevelAtPoint flatNoise flatGen ⟨0, 0⟩) := by
  have htop : flatBuffer.topFilled 0 0 = some 1 := by
    rw [topFilled_makeChunk flatNoise flatGen ⟨0, 0, 0⟩ ⟨15, 15, 15⟩ flatBuffer makeChunk_flat
      0 0 (by decide) (by decide)]
    decide
  have hg : getGroundLevelAtPoint flatNoise flatGen ⟨0, 0⟩ = 0 := by decide
  refine ⟨makeChunk_flat, ?_, ?_, ?_, htop, hg, ?_⟩
  · rw [get_makeChunk flatNoise flatGen ⟨0, 0, 0⟩ ⟨15, 15, 15⟩ flatBuffer makeChunk_flat
      ⟨0, 0, 0⟩ (by decide)]
    decide
  · rw [get_makeChunk flatNoise flatGen ⟨0, 0, 0⟩ ⟨15, 15, 15⟩ flatBuffer makeChunk_flat
      ⟨0, 1, 0⟩ (by decide)]
    decide
  · rw [get_makeChunk flatNoise flatGen ⟨0, 0, 0⟩ ⟨15, 15, 15⟩ flatBuffer makeChunk_flat
      ⟨0, 2, 0⟩ (by decide)]
    decide
  · rw [htop, hg]
    decide

theorem makeChunk_high :
    makeChunk highNoise flatGen ⟨0, 0, 0⟩ ⟨15, 15, 15⟩ = Except.ok highBuffer := by
  unfold makeChunk
  rw [if_pos (by decide)]
  rfl

/-- A column whose ground level 40 lies above the range from height 0 to 15 is
filled to the top of the buffer: its top filled voxel is at height 15. -/
theorem topFilled_above_range :
    highBuffer.topFilled 0 0 = some 15 ∧
    getGroundLevelAtPoint highNoise flatGen ⟨0, 0⟩ = 40 := by
  constructor
  · rw [topFilled_makeChunk highNoise flatGen ⟨0, 0, 0⟩ ⟨15, 15, 15⟩ highBuffer makeChunk_high
      0 0 (by decide) (by decide)]
    decide
  · decide

/-- C5, amended. For every column inside a range generated by `makeChunk`
whose ground level is not below the sea level and lies within the vertical
extent of the range, the vertical coordinate of the top filled (non-air)
voxel of the column in the produced buffer equals
`getGroundLevelAtPoint` of the column. -/
theorem height_consistency (N : NoiseField) (mg : MapgenV5) (node_min node_max : v3s16)
    (buf : VoxelBuffer) (c : v2s16)
    (hgen : makeChunk N mg node_min node_max = Except.ok buf)
    (hx : between node_min.X node_max.X c.X) (hz : between node_min.Z node_max.Z c.Y)
    (hsea : mg.params.seaLevel ≤ getGroundLevelAtPoint N mg c)
    (hy : between node_min.Y node_max.Y (getGroundLevelAtPoint N mg c)) :
    buf.topFilled c.X c.Y = some (getGroundLevelAtPoint N mg c) := by
  rw [topFilled_makeChunk N mg node_min node_max buf hgen c.X c.Y hx hz]
  unfold getGroundLevelAtPoint at hsea hy ⊢
  unfold between at hy
  have hmaxeq : max (baseHeight N mg c.X c.Y) mg.params.seaLevel = baseHeight N mg c.X c.Y :=
    max_eq_left hsea
  rw [hmaxeq, if_neg (by omega), min_eq_left hy.2]

/-- Witness of C5 (amended): a plateau of height 3 above the sea level 1. -/
theorem height_consistency_witness :
    plateauBuffer.topFilled 4 9 = some (getGroundLevelAtPoint plateauNoise flatGen ⟨4, 9⟩) :=
  height_consistency plateauNoise flatGen ⟨0, 0, 0⟩ ⟨15, 15, 15⟩ plateauBuffer ⟨4, 9⟩
    makeChunk_plateau (by decide) (by decide) (by decide) (by decide)

end MapgenV5

end Freeminer
